import Mathlib

/-!
Verification of the credential-resolution core of `docker-credential-env`.

The Go sources (`env.go`, `provider_aws.go`) are shallowly embedded below.
Process environments are modelled as read-only lookup functions
`String → Option String`: `some v` corresponds to a variable that is set
(`os.LookupEnv` returning `(v, true)`), `none` to an unset variable.
`os.Getenv` is the lookup defaulted to the empty string.  Go strings are
byte strings; all data handled by the claims is ASCII, where Go bytes and
Lean characters coincide, so strings are embedded as Lean strings and byte
slices as lists of byte values (`List Nat`).
-/

/-- Decidable equality for `Except`, used to evaluate the embedded
functions at concrete inputs. -/
instance {e a : Type} [DecidableEq e] [DecidableEq a] : DecidableEq (Except e a)
  | .error x, .error y =>
    if h : x = y then .isTrue (by rw [h]) else .isFalse (by simp [h])
  | .error _, .ok _ => .isFalse (by simp)
  | .ok _, .error _ => .isFalse (by simp)
  | .ok x, .ok y =>
    if h : x = y then .isTrue (by rw [h]) else .isFalse (by simp [h])

/-- A read-only process environment, as seen through `os.LookupEnv`. -/
def OsEnv : Type := String → Option String

/-- Embedding of `os.Getenv`: the looked-up value, or `""` when unset. -/
def osGetenv (osEnv : OsEnv) (key : String) : String :=
  (osEnv key).getD ""


/-- Go `strings.Split(s, ".")`-style split at a single (ASCII) separator
character, implemented structurally: splitting the empty string yields
`[""]`, and each occurrence of the separator starts a new field.  A
single-byte separator never occurs inside a multi-byte UTF-8 character, so
the character-level split agrees with Go's byte-level one. -/
def splitCharAux (sep : Char) : List Char → List Char → List String
  | [], acc => [String.mk acc.reverse]
  | c :: rest, acc =>
    if c = sep then String.mk acc.reverse :: splitCharAux sep rest []
    else splitCharAux sep rest (c :: acc)

/-- Split a string at every occurrence of a separator character. -/
def stringSplitChar (s : String) (sep : Char) : List String :=
  splitCharAux sep s.data []

/-- Embedding of `strings.ReplaceAll(hostname, "-", "_")`: both pattern and
replacement are single ASCII bytes, so the replacement is a character map. -/
def hyphensToUnderscores (s : String) : String :=
  String.mk (s.data.map (fun c => if c = '-' then '_' else c))

/-- Go `unicode.IsSpace` restricted to ASCII: space, tab, newline, vertical
tab, form feed, carriage return. -/
def isSpaceCh (c : Char) : Bool :=
  c.toNat = 32 || (9 ≤ c.toNat && c.toNat ≤ 13)

/-- Embedding of `strings.TrimSpace`: drop leading and trailing white
space. -/
def trimSpaceStr (s : String) : String :=
  String.mk (((s.data.dropWhile isSpaceCh).reverse.dropWhile isSpaceCh).reverse)

/-! ### Constants from `env.go` -/

/-- Constant `defaultScheme` from `env.go`. -/
def defaultScheme : String := "https://"

/-- Constant `envPrefix` from `env.go`. -/
def envPrefixStr : String := "DOCKER"

/-- Constant `envUsernameSuffix` from `env.go`. -/
def envUsernameSuffix : String := "USR"

/-- Constant `envPasswordSuffix` from `env.go`. -/
def envPasswordSuffix : String := "PSW"

/-- Constant `envSeparator` from `env.go`. -/
def envSeparator : String := "_"

/-- Constant `envIgnoreLogin` from `env.go`. -/
def envIgnoreLogin : String := "IGNORE_DOCKER_LOGIN"

/-! ### Tiered environment lookup (`getEnvVariables`, `getEnvCredentials`) -/

/-- Embedding of `getEnvVariables` from `env.go`: clamp the offset into
`[0, len(labels)]`, join the remaining labels with `_`, and build the
`DOCKER_<fragment>_USR` / `DOCKER_<fragment>_PSW` variable names. -/
def getEnvVariables (labels : List String) (offset : Int) : String × String :=
  let offset := max 0 (min offset (Int.ofNat labels.length))
  let envHostname := String.intercalate envSeparator (labels.drop offset.toNat)
  (String.intercalate envSeparator [envPrefixStr, envHostname, envUsernameSuffix],
   String.intercalate envSeparator [envPrefixStr, envHostname, envPasswordSuffix])

/-- The loop body of `getEnvCredentials`, iterated over the list of probe
offsets.  The accumulators `u`/`p` mirror the Go named return values
`username`/`password`: a failed `LookupEnv(envUsername)` overwrites
`username` with `""`, a successful one overwrites it with the value and then
the password lookup overwrites `password` (with `""` when unset). -/
def credScan (osEnv : OsEnv) (labels : List String) (u p : String) :
    List Nat → String × String × Bool
  | [] => (u, p, false)
  | i :: rest =>
    match osEnv (getEnvVariables labels (Int.ofNat i)).1 with
    | none => credScan osEnv labels "" p rest
    | some uv =>
      match osEnv (getEnvVariables labels (Int.ofNat i)).2 with
      | none => credScan osEnv labels uv "" rest
      | some pv => (uv, pv, true)

/-- Embedding of `getEnvCredentials` from `env.go`: replace hyphens by
underscores, split into dot-separated labels, and scan offsets
`0, 1, …, len(labels)` for the first offset at which both variables are
set. -/
def getEnvCredentials (osEnv : OsEnv) (hostname : String) : String × String × Bool :=
  let hostname := hyphensToUnderscores hostname
  let labels := stringSplitChar hostname '.'
  credScan osEnv labels "" "" (List.range (labels.length + 1))

/-- The labels used by `getEnvCredentials` for a hostname. -/
def envLabels (hostname : String) : List String :=
  stringSplitChar (hyphensToUnderscores hostname) '.'

/-- The ordered list of candidate variable-name pairs probed by
`getEnvCredentials` for a hostname. -/
def envCandidates (hostname : String) : List (String × String) :=
  (List.range ((envLabels hostname).length + 1)).map
    (fun i => getEnvVariables (envLabels hostname) (Int.ofNat i))

/-- Both variables of the probe at offset `i` are set in the environment. -/
def pairPresent (osEnv : OsEnv) (labels : List String) (i : Nat) : Prop :=
  (osEnv (getEnvVariables labels (Int.ofNat i)).1).isSome = true ∧
  (osEnv (getEnvVariables labels (Int.ofNat i)).2).isSome = true

instance (osEnv : OsEnv) (labels : List String) (i : Nat) :
    Decidable (pairPresent osEnv labels i) := by
  unfold pairPresent; infer_instance

/-! ### Model of Go `net/url` parsing, as used by `getHostname`

`getHostname` calls `url.Parse` on `defaultScheme + TrimPrefix(serverURL,
defaultScheme)` and returns `server.Hostname()`.  The definitions below
embed the slice of `net/url` exercised by such inputs: control-character
check, fragment/query cutting, scheme extraction, authority splitting,
userinfo validation, host validation (port syntax, allowed characters,
percent escapes) and `URL.Hostname()`'s port stripping.  Go operates on
bytes; the embedding operates on characters, which agrees on ASCII data
(non-ASCII characters are passed through by both, like Go passes bytes
above 0x7f through `encodeHost` checking). -/

/-- Character-level `strings.HasPrefix`. -/
def listStartsWith : List Char → List Char → Bool
  | _, [] => true
  | [], _ :: _ => false
  | a :: as, b :: bs => a = b && listStartsWith as bs

/-- Go `net/url` CTL-byte check: ASCII control characters. -/
def isCTL (c : Char) : Bool := c.toNat < 32 || c.toNat = 127

/-- Hex digit as accepted by `net/url`'s `ishex`. -/
def isHexDigitCh (c : Char) : Bool :=
  c.isDigit || (65 ≤ c.toNat && c.toNat ≤ 70) || (97 ≤ c.toNat && c.toNat ≤ 102)

/-- Hex digit value (`unhex`). -/
def hexVal (c : Char) : Nat :=
  if c.isDigit then c.toNat - 48
  else if c.toNat ≤ 70 then c.toNat - 55
  else c.toNat - 87

/-- Characters that need no escaping in a host (`shouldEscape(c, encodeHost)`
returning false): alphanumerics, the RFC 3986 unreserved marks, the
sub-delims plus `:[]<>"'`, and any non-ASCII character. -/
def isHostChar (c : Char) : Bool :=
  c.isAlphanum || "-._~!$&()*+,;=:[]<>".data.contains c ||
  c.toNat = 34 || c.toNat = 39 || c.toNat ≥ 128

/-- Characters allowed in userinfo (`validUserinfo`). -/
def isUserinfoChar (c : Char) : Bool :=
  c.isAlphanum || "-._:~!$&()*+,;=%@".data.contains c || c.toNat = 39

/-- Unescape and validate a host (`unescape(host, encodeHost)`): every `%`
must be followed by two hex digits and may only encode `%25` or a byte at
or above 0x80; every plain character must be a legal host character. -/
def unescapeHost : List Char → Option (List Char)
  | [] => some []
  | c :: rest =>
    if c = '%' then
      match rest with
      | a :: b :: rest2 =>
        if isHexDigitCh a && isHexDigitCh b then
          if hexVal a < 8 && !(a = '2' && b = '5') then none
          else (unescapeHost rest2).map (fun t => Char.ofNat (hexVal a * 16 + hexVal b) :: t)
        else none
      | _ => none
    else if isHostChar c then (unescapeHost rest).map (fun t => c :: t)
    else none

/-- Every `%` in the string is followed by two hex digits (the only escape
error raised when unescaping paths, fragments and userinfo). -/
def percentEscapesOk : List Char → Bool
  | [] => true
  | c :: rest =>
    if c = '%' then
      match rest with
      | a :: b :: rest2 => isHexDigitCh a && isHexDigitCh b && percentEscapesOk rest2
      | _ => false
    else percentEscapesOk rest

/-- Index of the last occurrence of a character. -/
def lastIdxOf (cs : List Char) (c : Char) : Option Nat :=
  (cs.reverse.findIdx? (fun x => x = c)).map (fun j => cs.length - 1 - j)

/-- Go `validOptionalPort`: empty, or `:` followed by digits only. -/
def validOptionalPort : List Char → Bool
  | [] => true
  | c :: rest => c = ':' && rest.all Char.isDigit

/-- Embedding of `net/url`'s `parseHost` (without IPv6 zone-identifier
unescaping, which no claim exercises): bracketed hosts need a closing
bracket and a valid optional port after it; otherwise everything from the
last colon on must be a valid optional port; then the host is unescaped
and character-checked. -/
def parseHost (host : List Char) : Except String (List Char) :=
  let unesc : Except String (List Char) :=
    match unescapeHost host with
    | none => .error "net/url: invalid host"
    | some h => .ok h
  match host with
  | '[' :: _ =>
    match lastIdxOf host ']' with
    | none => .error "missing close bracket in host"
    | some i =>
      if validOptionalPort (host.drop (i + 1)) then unesc
      else .error "invalid port after host"
  | _ =>
    match lastIdxOf host ':' with
    | none => unesc
    | some i =>
      if validOptionalPort (host.drop i) then unesc
      else .error "invalid port after host"

/-- Embedding of `net/url`'s `parseAuthority`: the host is everything after
the last `@`; a present userinfo must consist of legal userinfo characters
with well-formed percent escapes. -/
def parseAuthority (auth : List Char) : Except String (List Char) :=
  match lastIdxOf auth '@' with
  | none => parseHost auth
  | some i =>
    match parseHost (auth.drop (i + 1)) with
    | .error e => .error e
    | .ok h =>
      let userinfo := auth.take i
      if userinfo.all isUserinfoChar && percentEscapesOk userinfo then .ok h
      else .error "net/url: invalid userinfo"

/-- Lower-case an ASCII letter, as Go lower-cases schemes. -/
def lowerCh (c : Char) : Char := c.toLower

/-- Embedding of `net/url`'s `getScheme`: an alphabetic character starts a
scheme; digits and `+ - .` may continue one; a colon after a non-empty
scheme ends it (a leading colon is an error); any other character means the
string has no scheme. -/
def getSchemeAux (orig : String) : List Char → List Char → Except String (String × String)
  | [], _ => .ok ("", orig)
  | c :: rest, acc =>
    if c.isAlpha then getSchemeAux orig rest (acc ++ [c])
    else if c.isDigit || c = '+' || c = '-' || c = '.' then
      if acc = [] then .ok ("", orig) else getSchemeAux orig rest (acc ++ [c])
    else if c = ':' then
      if acc = [] then .error "missing protocol scheme"
      else .ok (String.mk (acc.map lowerCh), String.mk rest)
    else .ok ("", orig)

/-- Scheme and remainder of a raw URL string. -/
def getSchemeModel (rawURL : String) : Except String (String × String) :=
  getSchemeAux rawURL rawURL.data []

/-- Go `strings.Cut` at a character: text before the first occurrence, and
text after it (empty when absent). -/
def cutAt (s : String) (c : Char) : String × String :=
  let pre := s.data.takeWhile (fun x => x ≠ c)
  (String.mk pre, String.mk (s.data.drop (pre.length + 1)))

/-- Embedding of `URL.Hostname()`: strip a valid optional `:port` suffix and
surrounding brackets. -/
def hostnameOf (host : List Char) : String :=
  let stripped :=
    match lastIdxOf host ':' with
    | some i => if validOptionalPort (host.drop i) then host.take i else host
    | none => host
  match stripped with
  | '[' :: rest =>
    if stripped.getLast? = some ']' then String.mk (rest.dropLast) else String.mk stripped
  | _ => String.mk stripped

/-- Embedding of `url.Parse(rawURL).Hostname()` for the slice of `net/url`
described above: reject control characters, cut the fragment at the first
`#` (checking its percent escapes), extract the scheme, cut the query at
the first `?`, and when the remainder starts with `//` parse the authority
up to the next `/` (checking the path's percent escapes); a remainder
without `//` carries no host. -/
def urlParseHostname (rawURL : String) : Except String String :=
  if rawURL.data.any isCTL then .error "net/url: invalid control character in URL"
  else
    let (beforeFrag, frag) := cutAt rawURL '#'
    let mainResult : Except String String :=
      match getSchemeModel beforeFrag with
      | .error e => .error e
      | .ok (scheme, rest) =>
        let (rest2, _query) := cutAt rest '?'
        if listStartsWith rest2.data ['/', '/'] then
          let after := (rest2.drop 2).data
          let auth := after.takeWhile (fun c => c ≠ '/')
          let path := after.drop auth.length
          if percentEscapesOk path then
            match parseAuthority auth with
            | .error e => .error e
            | .ok host => .ok (hostnameOf host)
          else .error "invalid URL escape"
        else
          if scheme ≠ "" && ¬ listStartsWith rest2.data ['/'] then .ok ""
          else if percentEscapesOk rest2.data then .ok ""
          else .error "invalid URL escape"
    match mainResult with
    | .error e => .error e
    | .ok h => if percentEscapesOk frag.data then .ok h else .error "invalid URL escape"

/-- Go `strings.TrimPrefix(serverURL, defaultScheme)`. -/
def trimDefaultScheme (s : String) : String :=
  if listStartsWith s.data defaultScheme.data then String.mk (s.data.drop 8) else s

/-- Embedding of `getHostname` from `env.go`: parse
`defaultScheme + TrimPrefix(serverURL, defaultScheme)` and return the
hostname component, propagating parse errors. -/
def getHostname (serverURL : String) : Except String String :=
  urlParseHostname (defaultScheme ++ trimDefaultScheme serverURL)

/-- Modelled from the spec: the Hostname Normalizer as §4.1 words it —
"if the input lacks a recognizable scheme, prepend a default scheme before
parsing"; the output is the hostname component of the parse.  A scheme is
recognizable when `getScheme` extracts a non-empty scheme.  This definition
exists only to be compared with `getHostname`, which is translated from the
source. -/
def getHostnameSpec (serverURL : String) : Except String String :=
  let hasScheme : Bool :=
    match getSchemeModel serverURL with
    | .ok (scheme, _) => scheme != ""
    | .error _ => true
  if hasScheme then urlParseHostname serverURL
  else urlParseHostname (defaultScheme ++ serverURL)

/-! ### Registry pattern matchers and `Env.Get` -/

/-- Characters of the regex class `[-a-z0-9]`. -/
def isRegionChar (c : Char) : Bool :=
  c = '-' || (97 ≤ c.toNat && c.toNat ≤ 122) || c.isDigit

/-- Embedding of the anchored regex
`^(?P<account>[0-9]+)\.dkr\.ecr\.(?P<region>[-a-z0-9]+)\.amazonaws\.com$`
(`ecrHostname` in `env.go`), returning the `account` and `region` captures.
Neither character class contains a dot and the literal segments are
dot-free, so the regex matches exactly the hostnames whose dot-split is
`[account, "dkr", "ecr", region, "amazonaws", "com"]` with a non-empty
all-digit account and a non-empty region over `[-a-z0-9]`. -/
def ecrHostnameMatch (hostname : String) : Option (String × String) :=
  match stringSplitChar hostname '.' with
  | [account, d, e, region, a, c] =>
    if d = "dkr" && e = "ecr" && a = "amazonaws" && c = "com" &&
       account ≠ "" && account.data.all Char.isDigit &&
       region ≠ "" && region.data.all isRegionChar
    then some (account, region) else none
  | _ => none

/-- Embedding of the regex `^ghcr\.io$` (`ghcrHostname` in `env.go`). -/
def ghcrHostnameMatch (hostname : String) : Bool := hostname = "ghcr.io"

/-- Result type of `getEcrToken` (username, password, error), abstracted as
an oracle: `getEcrToken` performs network calls against the AWS SDK, so
`Env.Get` is embedded relative to an arbitrary oracle supplying its
result. -/
def EcrOracle : Type := String → String → String × String × Option String

/-- Embedding of `Env.Get` from `env.go`, with `getEcrToken` abstracted as
an oracle.  The result mirrors the Go named return values
`(username, password, err)`: note that the assignment
`username, password, ok = getEnvCredentials(hostname)` keeps the looked-up
values in the named returns even when `ok` is false, so the fall-through
branches return whatever `getEnvCredentials` last wrote. -/
def EnvGet (osEnv : OsEnv) (ecrToken : EcrOracle) (serverURL : String) :
    String × String × Option String :=
  match getHostname serverURL with
  | .error e => ("", "", some e)
  | .ok hostname =>
    match getEnvCredentials osEnv hostname with
    | (username, password, true) => (username, password, none)
    | (username, password, false) =>
      match ecrHostnameMatch hostname with
      | some (account, region) => ecrToken account region
      | none =>
        if ghcrHostnameMatch hostname then
          match osEnv "GITHUB_TOKEN" with
          | some token => ("x-access-token", token, none)
          | none => (username, password, none)
        else (username, password, none)

/-- Embedding of `Env.Add` from `env.go`: `nil` when `IGNORE_DOCKER_LOGIN`
is non-empty, otherwise the wrapped `NotSupportedError`.  The receiver has
no state; the only input is the environment and the only output the error
value. -/
def EnvAdd (osEnv : OsEnv) : Option String :=
  if osGetenv osEnv envIgnoreLogin ≠ "" then none
  else some "add: not supported"

/-- Embedding of `Env.Delete` from `env.go`, analogous to `Env.Add`. -/
def EnvDelete (osEnv : OsEnv) : Option String :=
  if osGetenv osEnv envIgnoreLogin ≠ "" then none
  else some "delete: not supported"

/-! ### AWS account credential resolver (`provider_aws.go`) and role
resolution (`getRoleArn` in `env.go`) -/

/-- The fields of `aws.Credentials` populated by `accountEnv.Retrieve`. -/
structure AwsCredentials where
  accessKeyID : String
  secretAccessKey : String
  sessionToken : String
  source : String
deriving DecidableEq, Repr

/-- Embedding of `accountEnv.Retrieve` from `provider_aws.go` (the
diagnostic stderr output aside): probe the `_<accountID>`-suffixed
variables through `os.Getenv`; if any of the three is non-empty both the
access key and the secret key must be, else the named variable is reported
missing; if none is non-empty fall back to the standard variables, which
must likewise provide access key and secret key. -/
def accountEnvRetrieve (osEnv : OsEnv) (accountID : String) :
    Except String AwsCredentials :=
  if accountID = "" then .error "accountEnv: AccountID must be set"
  else
    let suffix := "_" ++ accountID
    let accessKeyID := osGetenv osEnv ("AWS_ACCESS_KEY_ID" ++ suffix)
    let secretAccessKey := osGetenv osEnv ("AWS_SECRET_ACCESS_KEY" ++ suffix)
    let sessionToken := osGetenv osEnv ("AWS_SESSION_TOKEN" ++ suffix)
    if accessKeyID ≠ "" || secretAccessKey ≠ "" || sessionToken ≠ "" then
      if accessKeyID = "" then
        .error ("accountEnv: environment variable AWS_ACCESS_KEY_ID" ++ suffix ++ " not found")
      else if secretAccessKey = "" then
        .error ("accountEnv: environment variable AWS_SECRET_ACCESS_KEY" ++ suffix ++ " not found")
      else
        .ok ⟨accessKeyID, secretAccessKey, sessionToken,
             "Suffixed AWS Environment (Account: " ++ accountID ++ ")"⟩
    else
      let accessKeyID := osGetenv osEnv "AWS_ACCESS_KEY_ID"
      let secretAccessKey := osGetenv osEnv "AWS_SECRET_ACCESS_KEY"
      let sessionToken := osGetenv osEnv "AWS_SESSION_TOKEN"
      if accessKeyID = "" then
        .error "accountEnv: no account credentials found and standard AWS_ACCESS_KEY_ID not found"
      else if secretAccessKey = "" then
        .error "accountEnv: no account credentials found and standard AWS_SECRET_ACCESS_KEY not found"
      else
        .ok ⟨accessKeyID, secretAccessKey, sessionToken,
             "Standard AWS Environment (Account: " ++ accountID ++ ")"⟩

/-- The SDK configuration sources inspected by `getRoleArn`'s type switch:
`config.EnvConfig` and `config.SharedConfig` carry a `RoleARN` field, any
other source is skipped. -/
inductive ConfigSource where
  | envConfig (roleARN : String)
  | sharedConfig (roleARN : String)
  | other
deriving DecidableEq, Repr

/-- The scan of `getRoleArn` over its config sources: the first
`EnvConfig`/`SharedConfig` with a non-empty `RoleARN` wins (trimmed),
otherwise the empty string. -/
def scanConfigSources : List ConfigSource → String
  | [] => ""
  | .envConfig arn :: rest => if arn ≠ "" then trimSpaceStr arn else scanConfigSources rest
  | .sharedConfig arn :: rest => if arn ≠ "" then trimSpaceStr arn else scanConfigSources rest
  | .other :: rest => scanConfigSources rest

/-- Embedding of `getRoleArn` from `env.go`: an account-suffixed
`AWS_ROLE_ARN_<account>` wins when set; otherwise the presence of
account-suffixed credential variables is an error; otherwise, with no
config sources the standard `AWS_ROLE_ARN` is read via `os.Getenv`, and
with config sources they are scanned.  Go's `strings.TrimSpace` is
embedded as `String.trim` (they agree on ASCII whitespace). -/
def getRoleArn (osEnv : OsEnv) (account : String) (configSources : List ConfigSource) :
    Except String String :=
  match osEnv ("AWS_ROLE_ARN_" ++ account) with
  | some val => .ok (trimSpaceStr val)
  | none =>
    let hasAccessKey := (osEnv ("AWS_ACCESS_KEY_ID_" ++ account)).isSome
    let hasSecretKey := (osEnv ("AWS_SECRET_ACCESS_KEY_" ++ account)).isSome
    if hasAccessKey || hasSecretKey then
      .error ("account-specific environment variables for \"" ++ account ++
        "\" are set, but no role ARN found")
    else if configSources.length = 0 then
      .ok (osGetenv osEnv "AWS_ROLE_ARN")
    else
      .ok (scanConfigSources configSources)

/-- Which credentials provider `getEcrToken` hands to the ECR client:
lines 201–208 of `env.go` replace the static account-environment provider
by an assume-role provider exactly when `getRoleArn` succeeds with a
non-empty role ARN, and propagate its error otherwise. -/
inductive EcrCredSource where
  | static
  | assumedRole (roleArn : String)
deriving DecidableEq, Repr

/-- The credentials-provider selection performed by `getEcrToken` before
the `GetAuthorizationToken` request. -/
def ecrCredentialSelection (osEnv : OsEnv) (account : String)
    (configSources : List ConfigSource) : Except String EcrCredSource :=
  match getRoleArn osEnv account configSources with
  | .error e => .error e
  | .ok roleArn =>
    if roleArn ≠ "" then .ok (.assumedRole roleArn) else .ok .static

/-! ### ECR authorization-token decoding (`getEcrToken`, lines 216–242)

The token decoding performed on the `GetAuthorizationToken` response is
pure: base64-decode the token (Go `base64.StdEncoding`), split on the first
colon (`bytes.SplitN(tokenBytes, []byte{':'}, 2)`), and fail when the token
field is nil, the base64 is malformed, or no colon is present.  Byte slices
are embedded as `List Nat`. -/

/-- The byte values of an ASCII string (Go `[]byte(s)` for ASCII data). -/
def strBytes (s : String) : List Nat := s.data.map Char.toNat

/-- An ASCII byte slice back as a string (Go `string(b)`). -/
def bytesStr (bs : List Nat) : String := String.mk (bs.map Char.ofNat)

/-- The standard base64 alphabet. -/
def b64Alphabet : String :=
  "ABCDEFGHIJKLMNOPQRSTUVWXYZabcdefghijklmnopqrstuvwxyz0123456789+/"

/-- The alphabet character for a 6-bit value. -/
def b64Char (n : Nat) : Char := b64Alphabet.data.getD n 'A'

/-- The 6-bit value of an alphabet character, `none` outside the alphabet. -/
def b64Index (c : Char) : Option Nat := b64Alphabet.data.findIdx? (fun x => x = c)

/-- Standard base64 encoding with padding (`base64.StdEncoding.EncodeToString`). -/
def b64EncodeChars : List Nat → List Char
  | b0 :: b1 :: b2 :: rest =>
    b64Char (b0 / 4) :: b64Char (b0 % 4 * 16 + b1 / 16) ::
    b64Char (b1 % 16 * 4 + b2 / 64) :: b64Char (b2 % 64) :: b64EncodeChars rest
  | [b0, b1] =>
    [b64Char (b0 / 4), b64Char (b0 % 4 * 16 + b1 / 16), b64Char (b1 % 16 * 4), '=']
  | [b0] => [b64Char (b0 / 4), b64Char (b0 % 4 * 16), '=', '=']
  | [] => []

/-- Standard base64 encoding, as a string. -/
def base64Encode (bs : List Nat) : String := String.mk (b64EncodeChars bs)

/-- Standard base64 decoding with mandatory padding
(`base64.StdEncoding.DecodeString`): the input is consumed in blocks of
four alphabet characters, the final block may carry one or two padding
characters; anything else is a decode error (`none`). -/
def b64DecodeChars : List Char → Option (List Nat)
  | [] => some []
  | c0 :: c1 :: c2 :: c3 :: rest =>
    match b64Index c0, b64Index c1 with
    | some v0, some v1 =>
      if c2 = '=' then
        if c3 = '=' && rest = [] then some [v0 * 4 + v1 / 16] else none
      else
        match b64Index c2 with
        | some v2 =>
          if c3 = '=' then
            if rest = [] then some [v0 * 4 + v1 / 16, v1 % 16 * 16 + v2 / 4] else none
          else
            match b64Index c3 with
            | some v3 =>
              (b64DecodeChars rest).map
                (fun t => (v0 * 4 + v1 / 16) :: (v1 % 16 * 16 + v2 / 4) ::
                          (v2 % 4 * 64 + v3) :: t)
            | none => none
        | none => none
    | _, _ => none
  | _ => none

/-- Standard base64 decoding of a string. -/
def base64Decode (s : String) : Option (List Nat) := b64DecodeChars s.data

/-- Split a byte slice at the first occurrence of a separator
(`bytes.SplitN(bs, []byte{sep}, 2)`): the part before it and, when the
separator occurs, the part after it. -/
def splitFirstByte : List Nat → Nat → List Nat × Option (List Nat)
  | [], _ => ([], none)
  | b :: rest, sep =>
    if b = sep then ([], some rest)
    else
      let (pre, post) := splitFirstByte rest sep
      (b :: pre, post)

/-- Embedding of the token-decoding tail of `getEcrToken` (`env.go` lines
216–241), acting on the `AuthorizationToken` field of one authorization
data entry: a nil token is an error; the token is base64-decoded (a decode
failure is an error) and split on the first colon (byte 58); a token
without a colon is an error; otherwise the two parts are the username and
the password. -/
def decodeEcrAuthToken (account : String) (authToken : Option String) :
    Except String (String × String) :=
  match authToken with
  | none => .error ("ecr: authorization token for \"" ++ account ++ "\" is nil")
  | some tok =>
    match base64Decode tok with
    | none => .error "illegal base64 data at input byte"
    | some tokenBytes =>
      match splitFirstByte tokenBytes 58 with
      | (pre, some post) => .ok (bytesStr pre, bytesStr post)
      | (_, none) =>
        .error ("ecr: invalid authorization token format for \"" ++ account ++ "\"")

/-! ### Concrete environments and oracles used in witnesses and
counterexamples -/

/-- The empty environment. -/
def emptyEnv : OsEnv := fun _ => none

/-- Credentials for `example.com` only. -/
def exampleEnv : OsEnv := fun k =>
  if k = "DOCKER_example_com_USR" then some "u1"
  else if k = "DOCKER_example_com_PSW" then some "p1" else none

/-- Only the degenerate `DOCKER__USR` variable is set, with no matching
`DOCKER__PSW`. -/
def leakEnv : OsEnv := fun k => if k = "DOCKER__USR" then some "leak" else none

/-- Only `GITHUB_TOKEN` is set. -/
def ghTokenEnv : OsEnv := fun k => if k = "GITHUB_TOKEN" then some "t1" else none

/-- `GITHUB_TOKEN` is set to the empty string. -/
def ghEmptyTokenEnv : OsEnv := fun k => if k = "GITHUB_TOKEN" then some "" else none

/-- The `example.com` pair is set, both to the empty string. -/
def emptyPairEnv : OsEnv := fun k =>
  if k = "DOCKER_example_com_USR" then some ""
  else if k = "DOCKER_example_com_PSW" then some "" else none

/-- A full `DOCKER_*` pair for an ECR-pattern hostname. -/
def ecrTierEnv : OsEnv := fun k =>
  if k = "DOCKER_123456789012_dkr_ecr_us_east_1_amazonaws_com_USR" then some "eu"
  else if k = "DOCKER_123456789012_dkr_ecr_us_east_1_amazonaws_com_PSW" then some "ep"
  else none

/-- Only a suffixed AWS access key, with no suffixed secret key. -/
def awsSuffixOnlyKeyEnv : OsEnv := fun k =>
  if k = "AWS_ACCESS_KEY_ID_123" then some "AK" else none

/-- Full suffixed AWS credentials next to standard ones. -/
def awsSuffixFullEnv : OsEnv := fun k =>
  if k = "AWS_ACCESS_KEY_ID_123" then some "AK"
  else if k = "AWS_SECRET_ACCESS_KEY_123" then some "SK"
  else if k = "AWS_ACCESS_KEY_ID" then some "stdAK"
  else if k = "AWS_SECRET_ACCESS_KEY" then some "stdSK" else none

/-- Standard AWS credentials only. -/
def awsStandardEnv : OsEnv := fun k =>
  if k = "AWS_ACCESS_KEY_ID" then some "stdAK"
  else if k = "AWS_SECRET_ACCESS_KEY" then some "stdSK" else none

/-- A suffixed AWS access key set to the empty string, next to standard
credentials. -/
def awsEmptySuffixEnv : OsEnv := fun k =>
  if k = "AWS_ACCESS_KEY_ID_123" then some ""
  else if k = "AWS_ACCESS_KEY_ID" then some "stdAK"
  else if k = "AWS_SECRET_ACCESS_KEY" then some "stdSK" else none

/-- An account-suffixed role ARN with surrounding white space. -/
def roleSuffixEnv : OsEnv := fun k =>
  if k = "AWS_ROLE_ARN_123" then some " arn:aws:iam::123:role/r " else none

/-- A standard role ARN only. -/
def roleStandardEnv : OsEnv := fun k =>
  if k = "AWS_ROLE_ARN" then some "arn:std" else none

/-- `IGNORE_DOCKER_LOGIN` set to a non-empty value. -/
def ignoreLoginEnv : OsEnv := fun k =>
  if k = "IGNORE_DOCKER_LOGIN" then some "1" else none

/-- An ECR oracle whose result must not appear in any outcome reached
without delegation. -/
def ecrOracleUnused : EcrOracle := fun _ _ => ("", "", some "ecr: not reached")

/-- An ECR oracle tagging its result with the requested account and
region. -/
def ecrOracleTagged : EcrOracle := fun account region =>
  ("AWS", "tok-" ++ account ++ "-" ++ region, none)

/-! ### Lemmas about the tiered lookup -/

/-- The scan reports found exactly when some probed offset has both
variables set. -/
theorem credScan_found_iff (osEnv : OsEnv) (labels : List String) :
    ∀ (idxs : List Nat) (u p : String),
      (credScan osEnv labels u p idxs).2.2 = true ↔
        ∃ i ∈ idxs, pairPresent osEnv labels i := by
  intro idxs
  induction idxs with
  | nil => intro u p; simp [credScan]
  | cons i rest ih =>
    intro u p
    cases hU : osEnv (getEnvVariables labels (Int.ofNat i)).1 with
    | none =>
      have hnp : ¬ pairPresent osEnv labels i := by
        rintro ⟨h1, h2⟩
        rw [hU] at h1
        exact Bool.noConfusion h1
      simp only [credScan, hU, ih]
      constructor
      · rintro ⟨j, hj, hpj⟩; exact ⟨j, List.mem_cons_of_mem _ hj, hpj⟩
      · rintro ⟨j, hj, hpj⟩
        rcases List.mem_cons.mp hj with rfl | hj
        · exact absurd hpj hnp
        · exact ⟨j, hj, hpj⟩
    | some uv =>
      cases hP : osEnv (getEnvVariables labels (Int.ofNat i)).2 with
      | none =>
        have hnp : ¬ pairPresent osEnv labels i := by
          rintro ⟨h1, h2⟩
          rw [hP] at h2
          exact Bool.noConfusion h2
        simp only [credScan, hU, hP, ih]
        constructor
        · rintro ⟨j, hj, hpj⟩; exact ⟨j, List.mem_cons_of_mem _ hj, hpj⟩
        · rintro ⟨j, hj, hpj⟩
          rcases List.mem_cons.mp hj with rfl | hj
          · exact absurd hpj hnp
          · exact ⟨j, hj, hpj⟩
      | some pv =>
        have hp : pairPresent osEnv labels i := ⟨by rw [hU]; rfl, by rw [hP]; rfl⟩
        simp only [credScan, hU, hP]
        constructor
        · intro _; exact ⟨i, List.mem_cons_self i rest, hp⟩
        · intro _; trivial

/-- The scan returns the values of the first probed offset at which both
variables are set. -/
theorem credScan_first_hit (osEnv : OsEnv) (labels : List String) :
    ∀ (pre t : List Nat) (u p : String) (i : Nat),
      (∀ j ∈ pre, ¬ pairPresent osEnv labels j) → pairPresent osEnv labels i →
      credScan osEnv labels u p (pre ++ i :: t) =
        ((osEnv (getEnvVariables labels (Int.ofNat i)).1).getD "",
         (osEnv (getEnvVariables labels (Int.ofNat i)).2).getD "", true) := by
  intro pre
  induction pre with
  | nil =>
    intro t u p i _ hp
    obtain ⟨h1, h2⟩ := hp
    cases hU : osEnv (getEnvVariables labels (Int.ofNat i)).1 with
    | none => rw [hU] at h1; exact Bool.noConfusion h1
    | some uv =>
      cases hP : osEnv (getEnvVariables labels (Int.ofNat i)).2 with
      | none => rw [hP] at h2; exact Bool.noConfusion h2
      | some pv =>
        simp only [List.nil_append, credScan, hU, hP, Option.getD_some]
  | cons j pre ih =>
    intro t u p i hmiss hp
    have hnj : ¬ pairPresent osEnv labels j := hmiss j (List.mem_cons_self j pre)
    cases hU : osEnv (getEnvVariables labels (Int.ofNat j)).1 with
    | none =>
      simp only [List.cons_append, credScan, hU]
      exact ih t "" p i (fun k hk => hmiss k (List.mem_cons_of_mem _ hk)) hp
    | some uv =>
      have hP : osEnv (getEnvVariables labels (Int.ofNat j)).2 = none := by
        cases hP : osEnv (getEnvVariables labels (Int.ofNat j)).2 with
        | none => rfl
        | some pv =>
          exact absurd ⟨by rw [hU]; rfl, by rw [hP]; rfl⟩ hnj
      simp only [List.cons_append, credScan, hU, hP]
      exact ih t uv "" i (fun k hk => hmiss k (List.mem_cons_of_mem _ hk)) hp

/-- Splitting `range (N + 1)` at any `i ≤ N`. -/
theorem range_succ_split (i : Nat) : ∀ (N : Nat), i ≤ N →
    ∃ t, List.range (N + 1) = List.range i ++ i :: t := by
  intro N
  induction N with
  | zero =>
    intro h
    have hi : i = 0 := Nat.le_zero.mp h
    subst hi
    exact ⟨[], by simp [List.range_succ]⟩
  | succ N ih =>
    intro h
    rcases Nat.lt_or_ge i (N + 1) with hlt | hge
    · obtain ⟨t, ht⟩ := ih (Nat.lt_succ_iff.mp hlt)
      refine ⟨t ++ [N + 1], ?_⟩
      rw [List.range_succ, ht]
      simp
    · have hi : i = N + 1 := Nat.le_antisymm h hge
      subst hi
      exact ⟨[], by rw [List.range_succ]⟩

/-- When no probed offset hits, the scan ends on the values written by the
probe of the final offset: the username looked up there (or `""`) and an
empty password. -/
theorem credScan_miss_shape (osEnv : OsEnv) (labels : List String) :
    ∀ (idxs : List Nat) (last : Nat) (u : String),
      (∀ j ∈ idxs ++ [last], ¬ pairPresent osEnv labels j) →
      credScan osEnv labels u "" (idxs ++ [last]) =
        ((osEnv (getEnvVariables labels (Int.ofNat last)).1).getD "", "", false) := by
  intro idxs
  induction idxs with
  | nil =>
    intro last u hmiss
    have hn : ¬ pairPresent osEnv labels last := hmiss last (by simp)
    cases hU : osEnv (getEnvVariables labels (Int.ofNat last)).1 with
    | none => simp only [List.nil_append, credScan, hU, Option.getD_none]
    | some uv =>
      have hP : osEnv (getEnvVariables labels (Int.ofNat last)).2 = none := by
        cases hP : osEnv (getEnvVariables labels (Int.ofNat last)).2 with
        | none => rfl
        | some pv => exact absurd ⟨by rw [hU]; rfl, by rw [hP]; rfl⟩ hn
      simp only [List.nil_append, credScan, hU, hP, Option.getD_some]
  | cons j rest ih =>
    intro last u hmiss
    have hnj : ¬ pairPresent osEnv labels j := hmiss j (by simp)
    cases hU : osEnv (getEnvVariables labels (Int.ofNat j)).1 with
    | none =>
      simp only [List.cons_append, credScan, hU]
      exact ih last "" (fun k hk => hmiss k (List.mem_cons_of_mem _ hk))
    | some uv =>
      have hP : osEnv (getEnvVariables labels (Int.ofNat j)).2 = none := by
        cases hP : osEnv (getEnvVariables labels (Int.ofNat j)).2 with
        | none => rfl
        | some pv => exact absurd ⟨by rw [hU]; rfl, by rw [hP]; rfl⟩ hnj
      simp only [List.cons_append, credScan, hU, hP]
      exact ih last uv (fun k hk => hmiss k (List.mem_cons_of_mem _ hk))

/-- `getEnvCredentials` unfolded to the scan over `envLabels`. -/
theorem getEnvCredentials_eq (osEnv : OsEnv) (hostname : String) :
    getEnvCredentials osEnv hostname =
      credScan osEnv (envLabels hostname) "" ""
        (List.range ((envLabels hostname).length + 1)) := rfl

/-- The probe at offset `len(labels)` is the degenerate
`DOCKER__USR`/`DOCKER__PSW` pair, for every label list. -/
theorem getEnvVariables_at_length (labels : List String) :
    getEnvVariables labels (Int.ofNat labels.length) = ("DOCKER__USR", "DOCKER__PSW") := by
  unfold getEnvVariables
  simp [List.drop_length]
  constructor <;> rfl

/-- When the tiered lookup misses, its result is the residual value of the
final `DOCKER__USR` probe together with an empty password. -/
theorem getEnvCredentials_miss_shape (osEnv : OsEnv) (hostname : String)
    (h : (getEnvCredentials osEnv hostname).2.2 = false) :
    getEnvCredentials osEnv hostname = ((osEnv "DOCKER__USR").getD "", "", false) := by
  set N := (envLabels hostname).length with hN
  have hmiss : ∀ j ∈ List.range (N + 1), ¬ pairPresent osEnv (envLabels hostname) j := by
    intro j hj hpj
    have htrue : (getEnvCredentials osEnv hostname).2.2 = true := by
      rw [getEnvCredentials_eq]
      exact (credScan_found_iff osEnv (envLabels hostname) _ "" "").mpr ⟨j, hj, hpj⟩
    rw [htrue] at h
    exact Bool.noConfusion h
  have hsplit : List.range (N + 1) = List.range N ++ [N] := List.range_succ N
  rw [getEnvCredentials_eq, hsplit]
  rw [hsplit] at hmiss
  have hres := credScan_miss_shape osEnv (envLabels hostname) (List.range N) N "" hmiss
  rw [hres, getEnvVariables_at_length]

/-! ### Claim theorems -/

/-- C1: for every hostname with `N` dot-separated labels (after replacing
hyphens with underscores), `getEnvCredentials` probes exactly `N + 1`
candidate `DOCKER_<fragment>_USR`/`_PSW` pairs, at offsets ascending from
`0` (full hostname) to `N` (empty fragment, giving
`DOCKER__USR`/`DOCKER__PSW`); it reports found exactly when some probed
offset has both variables set, and returns the values of the first such
offset, so a fully-qualified match wins over a less specific one; with no
such offset it reports not-found. -/
theorem claim_C1_tiered_lookup (osEnv : OsEnv) (hostname : String) :
    ((envCandidates hostname).length = (envLabels hostname).length + 1) ∧
    ((getEnvCredentials osEnv hostname).2.2 = true ↔
      ∃ i, i ≤ (envLabels hostname).length ∧ pairPresent osEnv (envLabels hostname) i) ∧
    (∀ i, i ≤ (envLabels hostname).length →
      pairPresent osEnv (envLabels hostname) i →
      (∀ j, j < i → ¬ pairPresent osEnv (envLabels hostname) j) →
      getEnvCredentials osEnv hostname =
        ((osEnv (getEnvVariables (envLabels hostname) (Int.ofNat i)).1).getD "",
         (osEnv (getEnvVariables (envLabels hostname) (Int.ofNat i)).2).getD "", true)) := by
  refine ⟨by simp [envCandidates], ?_, ?_⟩
  · rw [getEnvCredentials_eq, credScan_found_iff]
    constructor
    · rintro ⟨i, hi, hp⟩
      exact ⟨i, Nat.lt_succ_iff.mp (List.mem_range.mp hi), hp⟩
    · rintro ⟨i, hi, hp⟩
      exact ⟨i, List.mem_range.mpr (Nat.lt_succ_iff.mpr hi), hp⟩
  · intro i hi hp hmin
    obtain ⟨t, ht⟩ := range_succ_split i (envLabels hostname).length hi
    rw [getEnvCredentials_eq, ht]
    exact credScan_first_hit osEnv (envLabels hostname) (List.range i) t "" "" i
      (fun j hj => hmin j (List.mem_range.mp hj)) hp

/-- Witness for C1 at the environment `exampleEnv` and hostname
`repo.example.com`: four candidate pairs are probed and the first fully
present pair, at offset 1, is returned. -/
theorem claim_C1_tiered_lookup_witness :
    (envCandidates "repo.example.com").length = 4 ∧
    (getEnvCredentials exampleEnv "repo.example.com").2.2 = true ∧
    getEnvCredentials exampleEnv "repo.example.com" = ("u1", "p1", true) := by
  refine ⟨(claim_C1_tiered_lookup exampleEnv "repo.example.com").1.trans (by decide), ?_, ?_⟩
  · exact (claim_C1_tiered_lookup exampleEnv "repo.example.com").2.1.mpr
      ⟨1, by decide, by decide⟩
  · have h := (claim_C1_tiered_lookup exampleEnv "repo.example.com").2.2 1
      (by decide) (by decide) (by decide)
    exact h.trans (by decide)

/-- C2 (amended): `Get` resolves in the fixed order: hostname parse errors
propagate with empty credentials; a hit of the tiered environment lookup is
returned immediately, with no condition on the hostname, so this tier wins
even for ECR-pattern hostnames; otherwise an ECR-pattern match delegates to
the ECR token path; otherwise a `ghcr.io` match with `GITHUB_TOKEN` set
returns the sentinel pair; in every remaining case the result carries a nil
error, an empty password, and as username the residual value of the final
`DOCKER__USR` probe — empty unless `DOCKER__USR` is set while
`DOCKER__PSW` is not. -/
theorem claim_C2_get_order (osEnv : OsEnv) (ecrToken : EcrOracle) (serverURL : String) :
    (∀ e, getHostname serverURL = .error e →
      EnvGet osEnv ecrToken serverURL = ("", "", some e)) ∧
    (∀ h u p, getHostname serverURL = .ok h →
      getEnvCredentials osEnv h = (u, p, true) →
      EnvGet osEnv ecrToken serverURL = (u, p, none)) ∧
    (∀ h account region, getHostname serverURL = .ok h →
      (getEnvCredentials osEnv h).2.2 = false →
      ecrHostnameMatch h = some (account, region) →
      EnvGet osEnv ecrToken serverURL = ecrToken account region) ∧
    (∀ h t, getHostname serverURL = .ok h →
      (getEnvCredentials osEnv h).2.2 = false →
      ecrHostnameMatch h = none → ghcrHostnameMatch h = true →
      osEnv "GITHUB_TOKEN" = some t →
      EnvGet osEnv ecrToken serverURL = ("x-access-token", t, none)) ∧
    (∀ h, getHostname serverURL = .ok h →
      (getEnvCredentials osEnv h).2.2 = false →
      ecrHostnameMatch h = none →
      (ghcrHostnameMatch h = false ∨ osEnv "GITHUB_TOKEN" = none) →
      EnvGet osEnv ecrToken serverURL = ((osEnv "DOCKER__USR").getD "", "", none)) := by
  refine ⟨?_, ?_, ?_, ?_, ?_⟩
  · intro e he
    simp only [EnvGet, he]
  · intro h u p hok hcred
    simp only [EnvGet, hok, hcred]
  · intro h account region hok hmiss hecr
    have hshape := getEnvCredentials_miss_shape osEnv h hmiss
    simp only [EnvGet, hok, hshape, hecr]
  · intro h t hok hmiss hecr hghcr htok
    have hshape := getEnvCredentials_miss_shape osEnv h hmiss
    simp only [EnvGet, hok, hshape, hecr, hghcr, htok]
    simp
  · intro h hok hmiss hecr hrest
    have hshape := getEnvCredentials_miss_shape osEnv h hmiss
    rcases hrest with hg | htok
    · simp only [EnvGet, hok, hshape, hecr, hg]
      simp
    · simp only [EnvGet, hok, hshape, hecr, htok]
      by_cases hg : ghcrHostnameMatch h = true <;> simp [hg, htok]

/-- Counterexample to C2 as stated: with only the degenerate `DOCKER__USR`
variable set, the final (not-found) branch of `Get` returns a non-empty
username with a nil error rather than empty credentials. -/
theorem claim_C2_counterexample :
    EnvGet leakEnv ecrOracleUnused "https://example.org" = ("leak", "", none) ∧
    EnvGet leakEnv ecrOracleUnused "https://example.org" ≠ ("", "", none) := by
  decide

/-- Witness for C2, exercising every branch of the resolution order at
concrete inputs: a parse error propagates; the tiered lookup beats the ECR
pattern; the ECR path receives the matched account and region; the GitHub
path returns the sentinel pair; a miss returns empty credentials when
`DOCKER__USR` is unset. -/
theorem claim_C2_get_order_witness :
    EnvGet exampleEnv ecrOracleUnused "https://example.com:8x/" =
      ("", "", some "invalid port after host") ∧
    EnvGet ecrTierEnv ecrOracleTagged "https://123456789012.dkr.ecr.us-east-1.amazonaws.com" =
      ("eu", "ep", none) ∧
    EnvGet emptyEnv ecrOracleTagged "https://123456789012.dkr.ecr.us-east-1.amazonaws.com" =
      ("AWS", "tok-123456789012-us-east-1", none) ∧
    EnvGet ghTokenEnv ecrOracleUnused "https://ghcr.io" = ("x-access-token", "t1", none) ∧
    EnvGet emptyEnv ecrOracleUnused "https://example.net" = ("", "", none) := by
  refine ⟨?_, ?_, ?_, ?_, ?_⟩
  · exact (claim_C2_get_order exampleEnv ecrOracleUnused "https://example.com:8x/").1
      "invalid port after host" (by decide)
  · exact (claim_C2_get_order ecrTierEnv ecrOracleTagged
      "https://123456789012.dkr.ecr.us-east-1.amazonaws.com").2.1
      "123456789012.dkr.ecr.us-east-1.amazonaws.com" "eu" "ep" (by decide) (by decide)
  · exact ((claim_C2_get_order emptyEnv ecrOracleTagged
      "https://123456789012.dkr.ecr.us-east-1.amazonaws.com").2.2.1
      "123456789012.dkr.ecr.us-east-1.amazonaws.com" "123456789012" "us-east-1"
      (by decide) (by decide) (by decide)).trans (by decide)
  · exact (claim_C2_get_order ghTokenEnv ecrOracleUnused "https://ghcr.io").2.2.2.1
      "ghcr.io" "t1" (by decide) (by decide) (by decide) (by decide) (by decide)
  · exact ((claim_C2_get_order emptyEnv ecrOracleUnused "https://example.net").2.2.2.2
      "example.net" (by decide) (by decide) (by decide) (Or.inl (by decide))).trans (by decide)

/-- C3: evaluation of `Get` at the failing input: with `DOCKER__USR` set,
`DOCKER__PSW` unset and no credentials for `example.net`, `Get` returns a
nil error with a non-empty username and an empty password — a partially
populated success, contradicting the invariant. -/
theorem claim_C3_partial_success :
    EnvGet leakEnv ecrOracleUnused "https://example.net" = ("leak", "", none) ∧
    (EnvGet leakEnv ecrOracleUnused "https://example.net").1 ≠ "" ∧
    (EnvGet leakEnv ecrOracleUnused "https://example.net").2.1 = "" ∧
    (EnvGet leakEnv ecrOracleUnused "https://example.net").2.2 = none := by
  decide

/-- C7 (amended): for server URL `ghcr.io`, when the tiered lookup misses:
with `GITHUB_TOKEN` set `Get` returns username `x-access-token` and the
token as secret; with `GITHUB_TOKEN` unset it returns a nil error, an empty
password, and as username the residual value of the `DOCKER__USR` probe —
empty unless `DOCKER__USR` is set without `DOCKER__PSW`. -/
theorem claim_C7_ghcr (osEnv : OsEnv) (ecrToken : EcrOracle)
    (hmiss : (getEnvCredentials osEnv "ghcr.io").2.2 = false) :
    (∀ t, osEnv "GITHUB_TOKEN" = some t →
      EnvGet osEnv ecrToken "ghcr.io" = ("x-access-token", t, none)) ∧
    (osEnv "GITHUB_TOKEN" = none →
      EnvGet osEnv ecrToken "ghcr.io" = ((osEnv "DOCKER__USR").getD "", "", none)) := by
  have hok : getHostname "ghcr.io" = .ok "ghcr.io" := by decide
  have hshape := getEnvCredentials_miss_shape osEnv "ghcr.io" hmiss
  have hecr : ecrHostnameMatch "ghcr.io" = none := by decide
  constructor
  · intro t htok
    simp only [EnvGet, hok, hshape, hecr, htok]
    simp [ghcrHostnameMatch]
  · intro htok
    simp only [EnvGet, hok, hshape, hecr, htok]
    simp [ghcrHostnameMatch]

/-- Counterexample to C7 as stated: with the degenerate `DOCKER__USR`
variable set (still no matching `DOCKER_*` pair) and `GITHUB_TOKEN` unset,
`Get` on `ghcr.io` returns a non-empty username rather than empty
credentials. -/
theorem claim_C7_counterexample :
    (getEnvCredentials leakEnv "ghcr.io").2.2 = false ∧
    leakEnv "GITHUB_TOKEN" = none ∧
    EnvGet leakEnv ecrOracleUnused "ghcr.io" = ("leak", "", none) ∧
    EnvGet leakEnv ecrOracleUnused "ghcr.io" ≠ ("", "", none) := by
  decide

/-- Witness for C7 at concrete environments: with `GITHUB_TOKEN=t1` the
sentinel pair is returned; with the token unset and an empty environment
the result is empty with a nil error. -/
theorem claim_C7_ghcr_witness :
    EnvGet ghTokenEnv ecrOracleUnused "ghcr.io" = ("x-access-token", "t1", none) ∧
    EnvGet emptyEnv ecrOracleUnused "ghcr.io" = ("", "", none) := by
  constructor
  · exact (claim_C7_ghcr ghTokenEnv ecrOracleUnused (by decide)).1 "t1" (by decide)
  · exact ((claim_C7_ghcr emptyEnv ecrOracleUnused (by decide)).2 (by decide)).trans (by decide)

/-- The character data of an appended string. -/
theorem string_data_append (a b : String) : (a ++ b).data = a.data ++ b.data := by
  cases a; cases b; rfl

/-- A string formed by `String.mk` of its own data. -/
theorem string_mk_data (s : String) : String.mk s.data = s := by
  cases s; rfl

/-- A list starts with its own prefix. -/
theorem listStartsWith_append (p t : List Char) : listStartsWith (p ++ t) p = true := by
  induction p with
  | nil => cases t <;> rfl
  | cons c cs ih => simp [listStartsWith, ih]

/-- C8 (amended): `getHostname` strips a literal `https://` prefix and
unconditionally prepends `https://`, so any input that does not already
start with the default scheme parses exactly like the corresponding
`https` URL, and the result is the hostname component of that parse,
erroring exactly when the parse does. -/
theorem claim_C8_hostname (s : String)
    (h : listStartsWith s.data defaultScheme.data = false) :
    getHostname s = getHostname (defaultScheme ++ s) ∧
    getHostname s = urlParseHostname (defaultScheme ++ s) := by
  have htrim : trimDefaultScheme s = s := by
    unfold trimDefaultScheme
    rw [h]
    rfl
  have h2 : listStartsWith (defaultScheme ++ s).data defaultScheme.data = true := by
    rw [string_data_append]
    exact listStartsWith_append _ _
  have hlen : defaultScheme.data.length = 8 := rfl
  have hdrop : (defaultScheme ++ s).data.drop 8 = s.data := by
    rw [string_data_append, ← hlen, List.drop_left]
  have htrim2 : trimDefaultScheme (defaultScheme ++ s) = s := by
    unfold trimDefaultScheme
    rw [h2]
    simp only [string_data_append, ← hlen, List.drop_left, string_mk_data]
    simp
  constructor
  · unfold getHostname
    rw [htrim, htrim2]
  · unfold getHostname
    rw [htrim]

/-- Counterexample to C8 as stated: `http://example.com` carries a
recognizable scheme, yet `getHostname` still prepends the default scheme
(after trimming only the literal `https://`), so the parsed hostname is
`http` rather than `example.com` as the spec-worded normalizer yields. -/
theorem claim_C8_counterexample :
    getHostname "http://example.com" = .ok "http" ∧
    getHostnameSpec "http://example.com" = .ok "example.com" ∧
    getHostname "http://example.com" ≠ getHostnameSpec "http://example.com" := by
  decide

/-- Witness for C8: the user-style input `example.com/path` parses exactly
like the full URL `https://example.com/path`, yielding the hostname. -/
theorem claim_C8_hostname_witness :
    getHostname "example.com/path" = getHostname (defaultScheme ++ "example.com/path") ∧
    getHostname "example.com/path" = .ok "example.com" := by
  refine ⟨(claim_C8_hostname "example.com/path" (by decide)).1, by decide⟩

/-- C4: for every non-empty account ID, if any of the three suffixed AWS
variables is present (non-empty), `Retrieve` fails naming the missing
suffixed access-key or secret-key variable when either is missing, and
otherwise succeeds using only the suffixed values — never the standard
ones; if no suffixed variable is present it falls back to the standard
variables, failing with the `no account credentials found` errors when the
standard access-key or secret-key is absent. -/
theorem claim_C4_account_env (osEnv : OsEnv) (accountID : String) (hne : accountID ≠ "") :
    ((osGetenv osEnv ("AWS_ACCESS_KEY_ID" ++ ("_" ++ accountID)) ≠ "" ∨
      osGetenv osEnv ("AWS_SECRET_ACCESS_KEY" ++ ("_" ++ accountID)) ≠ "" ∨
      osGetenv osEnv ("AWS_SESSION_TOKEN" ++ ("_" ++ accountID)) ≠ "") →
      ((osGetenv osEnv ("AWS_ACCESS_KEY_ID" ++ ("_" ++ accountID)) = "" →
        accountEnvRetrieve osEnv accountID =
          .error ("accountEnv: environment variable AWS_ACCESS_KEY_ID" ++
            ("_" ++ accountID) ++ " not found")) ∧
       (osGetenv osEnv ("AWS_ACCESS_KEY_ID" ++ ("_" ++ accountID)) ≠ "" →
        osGetenv osEnv ("AWS_SECRET_ACCESS_KEY" ++ ("_" ++ accountID)) = "" →
        accountEnvRetrieve osEnv accountID =
          .error ("accountEnv: environment variable AWS_SECRET_ACCESS_KEY" ++
            ("_" ++ accountID) ++ " not found")) ∧
       (osGetenv osEnv ("AWS_ACCESS_KEY_ID" ++ ("_" ++ accountID)) ≠ "" →
        osGetenv osEnv ("AWS_SECRET_ACCESS_KEY" ++ ("_" ++ accountID)) ≠ "" →
        accountEnvRetrieve osEnv accountID =
          .ok ⟨osGetenv osEnv ("AWS_ACCESS_KEY_ID" ++ ("_" ++ accountID)),
               osGetenv osEnv ("AWS_SECRET_ACCESS_KEY" ++ ("_" ++ accountID)),
               osGetenv osEnv ("AWS_SESSION_TOKEN" ++ ("_" ++ accountID)),
               "Suffixed AWS Environment (Account: " ++ accountID ++ ")"⟩))) ∧
    ((osGetenv osEnv ("AWS_ACCESS_KEY_ID" ++ ("_" ++ accountID)) = "" ∧
      osGetenv osEnv ("AWS_SECRET_ACCESS_KEY" ++ ("_" ++ accountID)) = "" ∧
      osGetenv osEnv ("AWS_SESSION_TOKEN" ++ ("_" ++ accountID)) = "") →
      ((osGetenv osEnv "AWS_ACCESS_KEY_ID" = "" →
        accountEnvRetrieve osEnv accountID =
          .error "accountEnv: no account credentials found and standard AWS_ACCESS_KEY_ID not found") ∧
       (osGetenv osEnv "AWS_ACCESS_KEY_ID" ≠ "" →
        osGetenv osEnv "AWS_SECRET_ACCESS_KEY" = "" →
        accountEnvRetrieve osEnv accountID =
          .error "accountEnv: no account credentials found and standard AWS_SECRET_ACCESS_KEY not found") ∧
       (osGetenv osEnv "AWS_ACCESS_KEY_ID" ≠ "" →
        osGetenv osEnv "AWS_SECRET_ACCESS_KEY" ≠ "" →
        accountEnvRetrieve osEnv accountID =
          .ok ⟨osGetenv osEnv "AWS_ACCESS_KEY_ID", osGetenv osEnv "AWS_SECRET_ACCESS_KEY",
               osGetenv osEnv "AWS_SESSION_TOKEN",
               "Standard AWS Environment (Account: " ++ accountID ++ ")"⟩))) := by
  constructor
  · intro hany
    refine ⟨?_, ?_, ?_⟩
    · intro h0
      rcases hany with h | h | h
      · exact absurd h0 h
      · simp [accountEnvRetrieve, hne, h0, h]
      · simp [accountEnvRetrieve, hne, h0, h]
    · intro h0 h1
      simp [accountEnvRetrieve, hne, h0, h1]
    · intro h0 h1
      simp [accountEnvRetrieve, hne, h0, h1]
  · rintro ⟨e1, e2, e3⟩
    refine ⟨?_, ?_, ?_⟩
    · intro h0
      simp [accountEnvRetrieve, hne, e1, e2, e3, h0]
    · intro h0 h1
      simp [accountEnvRetrieve, hne, e1, e2, e3, h0, h1]
    · intro h0 h1
      simp [accountEnvRetrieve, hne, e1, e2, e3, h0, h1]

/-- Witness for C4: a suffixed access key without a suffixed secret key
fails naming the suffixed secret variable, even with valid standard
credentials present; full suffixed credentials win over standard ones; and
standard credentials are used when no suffixed variable is set. -/
theorem claim_C4_account_env_witness :
    accountEnvRetrieve awsSuffixOnlyKeyEnv "123" =
      .error "accountEnv: environment variable AWS_SECRET_ACCESS_KEY_123 not found" ∧
    accountEnvRetrieve awsSuffixFullEnv "123" =
      .ok ⟨"AK", "SK", "", "Suffixed AWS Environment (Account: 123)"⟩ ∧
    accountEnvRetrieve awsStandardEnv "123" =
      .ok ⟨"stdAK", "stdSK", "", "Standard AWS Environment (Account: 123)"⟩ := by
  refine ⟨?_, ?_, ?_⟩
  · exact (((claim_C4_account_env awsSuffixOnlyKeyEnv "123" (by decide)).1
      (Or.inl (by decide))).2.1 (by decide) (by decide)).trans (by decide)
  · exact (((claim_C4_account_env awsSuffixFullEnv "123" (by decide)).1
      (Or.inl (by decide))).2.2 (by decide) (by decide)).trans (by decide)
  · exact (((claim_C4_account_env awsStandardEnv "123" (by decide)).2
      ⟨by decide, by decide, by decide⟩).2.2 (by decide) (by decide)).trans (by decide)

/-- C5: role resolution first looks up the account-suffixed
`AWS_ROLE_ARN_<account>` and uses its (trimmed) value when set; when it is
absent and no account-suffixed credential variables are set, it falls back
to a standard role ARN — the `AWS_ROLE_ARN` variable when no config
sources were loaded, else the first role ARN among the config sources; and
whenever a non-empty role ARN is resolved, `getEcrToken` swaps the static
credentials for an assume-role provider before the token request. -/
theorem claim_C5_role_resolution (osEnv : OsEnv) (account : String)
    (configSources : List ConfigSource) :
    (∀ v, osEnv ("AWS_ROLE_ARN_" ++ account) = some v →
      getRoleArn osEnv account configSources = .ok (trimSpaceStr v)) ∧
    (osEnv ("AWS_ROLE_ARN_" ++ account) = none →
     osEnv ("AWS_ACCESS_KEY_ID_" ++ account) = none →
     osEnv ("AWS_SECRET_ACCESS_KEY_" ++ account) = none →
      getRoleArn osEnv account configSources =
        .ok (if configSources.length = 0 then osGetenv osEnv "AWS_ROLE_ARN"
             else scanConfigSources configSources)) ∧
    (∀ arn, arn ≠ "" → getRoleArn osEnv account configSources = .ok arn →
      ecrCredentialSelection osEnv account configSources = .ok (.assumedRole arn)) ∧
    (getRoleArn osEnv account configSources = .ok "" →
      ecrCredentialSelection osEnv account configSources = .ok .static) := by
  refine ⟨?_, ?_, ?_, ?_⟩
  · intro v hv
    simp [getRoleArn, hv]
  · intro h1 h2 h3
    by_cases hl : configSources.length = 0 <;> simp [getRoleArn, h1, h2, h3, hl]
  · intro arn harnne harn
    simp [ecrCredentialSelection, harn, harnne]
  · intro harn
    simp [ecrCredentialSelection, harn]

/-- Witness for C5: the suffixed role ARN wins and is trimmed; the standard
variable is used when no suffixed variables and no config sources exist;
and a resolved role ARN selects the assume-role provider. -/
theorem claim_C5_role_resolution_witness :
    getRoleArn roleSuffixEnv "123" [] = .ok "arn:aws:iam::123:role/r" ∧
    getRoleArn roleStandardEnv "123" [] = .ok "arn:std" ∧
    ecrCredentialSelection roleSuffixEnv "123" [] =
      .ok (.assumedRole "arn:aws:iam::123:role/r") ∧
    getRoleArn emptyEnv "123" [ConfigSource.other, ConfigSource.envConfig "arn:cfg"] =
      .ok "arn:cfg" := by
  refine ⟨?_, ?_, ?_, ?_⟩
  · exact ((claim_C5_role_resolution roleSuffixEnv "123" []).1
      " arn:aws:iam::123:role/r " (by decide)).trans (by decide)
  · exact ((claim_C5_role_resolution roleStandardEnv "123" []).2.1
      (by decide) (by decide) (by decide)).trans (by decide)
  · exact (claim_C5_role_resolution roleSuffixEnv "123" []).2.2.1
      "arn:aws:iam::123:role/r" (by decide) (by decide)
  · exact ((claim_C5_role_resolution emptyEnv "123"
      [ConfigSource.other, ConfigSource.envConfig "arn:cfg"]).2.1
      (by decide) (by decide) (by decide)).trans (by decide)

/-- A byte slice without the separator splits into itself and no
remainder. -/
theorem splitFirstByte_no_sep (sep : Nat) : ∀ (bs : List Nat),
    bs.contains sep = false → splitFirstByte bs sep = (bs, none) := by
  intro bs
  induction bs with
  | nil => intro _; rfl
  | cons b rest ih =>
    intro h
    simp only [List.contains_cons, Bool.or_eq_false_iff, beq_eq_false_iff_ne] at h
    have hb : ¬ (b = sep) := fun hEq => h.1 hEq.symm
    simp [splitFirstByte, hb, ih h.2]

/-- C6: decoding an ECR authorization token round-trips base64 encoding and
colon joining: `base64("AWS:secrettoken")` decodes to username `AWS` and
secret `secrettoken` (split at the first colon); a token whose decoded
bytes contain no colon is an invalid-format error, and a nil token field is
a nil-token error. -/
theorem claim_C6_token_roundtrip (account : String) :
    decodeEcrAuthToken account (some (base64Encode (strBytes "AWS:secrettoken"))) =
      .ok ("AWS", "secrettoken") ∧
    (∀ t bs, base64Decode t = some bs → bs.contains 58 = false →
      decodeEcrAuthToken account (some t) =
        .error ("ecr: invalid authorization token format for \"" ++ account ++ "\"")) ∧
    decodeEcrAuthToken account none =
      .error ("ecr: authorization token for \"" ++ account ++ "\" is nil") := by
  refine ⟨rfl, ?_, rfl⟩
  intro t bs hdec hnocolon
  simp [decodeEcrAuthToken, hdec, splitFirstByte_no_sep 58 bs hnocolon]

/-- Witness for C6 at the account `123456789012`: the concrete round trip,
a colon-free token, and a nil token. -/
theorem claim_C6_token_roundtrip_witness :
    decodeEcrAuthToken "123456789012" (some (base64Encode (strBytes "AWS:secrettoken"))) =
      .ok ("AWS", "secrettoken") ∧
    decodeEcrAuthToken "123456789012" (some (base64Encode (strBytes "nocolontoken"))) =
      .error "ecr: invalid authorization token format for \"123456789012\"" ∧
    decodeEcrAuthToken "123456789012" none =
      .error "ecr: authorization token for \"123456789012\" is nil" := by
  refine ⟨(claim_C6_token_roundtrip "123456789012").1, ?_, ?_⟩
  · exact ((claim_C6_token_roundtrip "123456789012").2.1
      (base64Encode (strBytes "nocolontoken")) (strBytes "nocolontoken")
      (by decide) (by decide)).trans (by decide)
  · exact ((claim_C6_token_roundtrip "123456789012").2.2).trans (by decide)

/-- C9: `Add` and `Delete` return the wrapped not-supported error whenever
`IGNORE_DOCKER_LOGIN` is unset, and return nil for any non-empty value of
it; both are pure functions of the environment, modifying no state. -/
theorem claim_C9_add_delete (osEnv : OsEnv) :
    (osEnv envIgnoreLogin = none →
      EnvAdd osEnv = some "add: not supported" ∧
      EnvDelete osEnv = some "delete: not supported") ∧
    (∀ v, v ≠ "" → osEnv envIgnoreLogin = some v →
      EnvAdd osEnv = none ∧ EnvDelete osEnv = none) := by
  constructor
  · intro h
    constructor <;> simp [EnvAdd, EnvDelete, osGetenv, h]
  · intro v hv h
    constructor <;> simp [EnvAdd, EnvDelete, osGetenv, h, hv]

/-- Witness for C9: the empty environment produces the not-supported
errors; `IGNORE_DOCKER_LOGIN=1` turns both verbs into successful no-ops. -/
theorem claim_C9_add_delete_witness :
    EnvAdd emptyEnv = some "add: not supported" ∧
    EnvDelete emptyEnv = some "delete: not supported" ∧
    EnvAdd ignoreLoginEnv = none ∧
    EnvDelete ignoreLoginEnv = none := by
  refine ⟨((claim_C9_add_delete emptyEnv).1 (by decide)).1,
          ((claim_C9_add_delete emptyEnv).1 (by decide)).2,
          ((claim_C9_add_delete ignoreLoginEnv).2 "1" (by decide) (by decide)).1,
          ((claim_C9_add_delete ignoreLoginEnv).2 "1" (by decide) (by decide)).2⟩

/-- C10: the tiered lookup and the GitHub path test presence, not
non-emptiness: a `DOCKER_*` pair both set to the empty string is found with
empty username and password, and `GITHUB_TOKEN=""` still yields the
sentinel username with an empty secret; by contrast a suffixed AWS variable
set to the empty string is treated as absent by `Retrieve`, which proceeds
to the standard-variable fallback exactly as if the suffixed variable were
unset. -/
theorem claim_C10_presence_semantics (osEnv : OsEnv) (hostname accountID : String) :
    (osEnv (getEnvVariables (envLabels hostname) (Int.ofNat 0)).1 = some "" →
     osEnv (getEnvVariables (envLabels hostname) (Int.ofNat 0)).2 = some "" →
      getEnvCredentials osEnv hostname = ("", "", true)) ∧
    (∀ ecrToken : EcrOracle, (getEnvCredentials osEnv "ghcr.io").2.2 = false →
      osEnv "GITHUB_TOKEN" = some "" →
      EnvGet osEnv ecrToken "ghcr.io" = ("x-access-token", "", none)) ∧
    (accountID ≠ "" →
     osEnv ("AWS_ACCESS_KEY_ID" ++ ("_" ++ accountID)) = some "" →
     osEnv ("AWS_SECRET_ACCESS_KEY" ++ ("_" ++ accountID)) = none →
     osEnv ("AWS_SESSION_TOKEN" ++ ("_" ++ accountID)) = none →
      accountEnvRetrieve osEnv accountID =
        (if osGetenv osEnv "AWS_ACCESS_KEY_ID" = "" then
          .error "accountEnv: no account credentials found and standard AWS_ACCESS_KEY_ID not found"
         else if osGetenv osEnv "AWS_SECRET_ACCESS_KEY" = "" then
          .error "accountEnv: no account credentials found and standard AWS_SECRET_ACCESS_KEY not found"
         else
          .ok ⟨osGetenv osEnv "AWS_ACCESS_KEY_ID", osGetenv osEnv "AWS_SECRET_ACCESS_KEY",
               osGetenv osEnv "AWS_SESSION_TOKEN",
               "Standard AWS Environment (Account: " ++ accountID ++ ")"⟩)) := by
  refine ⟨?_, ?_, ?_⟩
  · intro h1 h2
    rw [getEnvCredentials_eq, List.range_succ_eq_map]
    simp only [credScan, h1, h2]
  · intro ecrToken hmiss htok
    have hok : getHostname "ghcr.io" = .ok "ghcr.io" := by decide
    have hshape := getEnvCredentials_miss_shape osEnv "ghcr.io" hmiss
    have hecr : ecrHostnameMatch "ghcr.io" = none := by decide
    simp only [EnvGet, hok, hshape, hecr, htok]
    simp [ghcrHostnameMatch]
  · intro hne h1 h2 h3
    simp only [accountEnvRetrieve, osGetenv, h1, h2, h3]
    simp [hne]

/-- Witness for C10: the empty-string `example.com` pair is found empty;
`GITHUB_TOKEN=""` yields the sentinel with empty secret on `ghcr.io`; and
an empty suffixed AWS access key falls back to the standard credentials. -/
theorem claim_C10_presence_semantics_witness :
    getEnvCredentials emptyPairEnv "example.com" = ("", "", true) ∧
    EnvGet ghEmptyTokenEnv ecrOracleUnused "ghcr.io" = ("x-access-token", "", none) ∧
    accountEnvRetrieve awsEmptySuffixEnv "123" =
      .ok ⟨"stdAK", "stdSK", "", "Standard AWS Environment (Account: 123)"⟩ := by
  refine ⟨?_, ?_, ?_⟩
  · exact (claim_C10_presence_semantics emptyPairEnv "example.com" "123").1
      (by decide) (by decide)
  · exact (claim_C10_presence_semantics ghEmptyTokenEnv "example.com" "123").2.1
      ecrOracleUnused (by decide) (by decide)
  · exact ((claim_C10_presence_semantics awsEmptySuffixEnv "example.com" "123").2.2
      (by decide) (by decide) (by decide) (by decide)).trans (by decide)
